import Mathlib

/-!
# Verification of the `lean_bench` compilation cache, attempt ledger and
# compiler-output handling

Shallow embedding of `src/lean_bench/cache.py`, `src/lean_bench/storage.py`
and `src/lean_bench/compiler.py`.  Python values that can appear as cache
arguments, JSON file contents, attempt records and filter values are
modelled by the inductive type `Value`; the filesystem is modelled by
association lists from file / directory names to contents; wall-clock time
(`time.time()`, `datetime.now()`) is modelled by an explicit integer
parameter.
-/

set_option maxHeartbeats 1000000

namespace LeanBench

/-- A Python/JSON value as used by the repository: strings, integers,
booleans, `None`, lists and string-keyed dicts (modelled as association
lists in insertion order).  Floats never occur in the values the claims
are about and are not modelled. -/
inductive Value where
  | str (s : String)
  | int (n : Int)
  | bool (b : Bool)
  | null
  | list (xs : List Value)
  | dict (kvs : List (String × Value))

mutual

/-- Structural equality of values; models Python `==` on the JSON-like
values the repository manipulates (Python's cross-type numeric equality
such as `1 == True` is not exercised by any of these values). -/
def vbeq : Value → Value → Bool
  | .str a, .str b => a == b
  | .int a, .int b => a == b
  | .bool a, .bool b => a == b
  | .null, .null => true
  | .list xs, .list ys => vbeqList xs ys
  | .dict xs, .dict ys => vbeqPairs xs ys
  | _, _ => false

/-- Elementwise equality of value lists. -/
def vbeqList : List Value → List Value → Bool
  | [], [] => true
  | x :: xs, y :: ys => vbeq x y && vbeqList xs ys
  | _, _ => false

/-- Elementwise equality of key/value binding lists. -/
def vbeqPairs : List (String × Value) → List (String × Value) → Bool
  | [], [] => true
  | p :: ps, q :: qs => (p.1 == q.1) && vbeq p.2 q.2 && vbeqPairs ps qs
  | _, _ => false

end

/-- Correctness of `vbeq`: it and its list/pairs companions decide
propositional equality;
proved by strong induction on size. -/
theorem vbeq_aux (n : Nat) :
    (∀ a b : Value, sizeOf a ≤ n → (vbeq a b = true ↔ a = b)) ∧
    (∀ xs ys : List Value, sizeOf xs ≤ n → (vbeqList xs ys = true ↔ xs = ys)) ∧
    (∀ ps qs : List (String × Value), sizeOf ps ≤ n →
      (vbeqPairs ps qs = true ↔ ps = qs)) := by
  induction n with
  | zero =>
      refine ⟨fun a b ha => ?_, fun xs ys hx => ?_, fun ps qs hp => ?_⟩
      · exact absurd ha (by cases a <;> simp <;> omega)
      · exact absurd hx (by cases xs <;> simp <;> omega)
      · exact absurd hp (by cases ps <;> simp <;> omega)
  | succ n ih =>
      obtain ⟨ihV, ihL, ihP⟩ := ih
      refine ⟨fun a b ha => ?_, fun xs ys hx => ?_, fun ps qs hp => ?_⟩
      · cases a <;> cases b <;> simp only [vbeq] <;> try simp
        case list.list xs ys =>
          rw [ihL xs ys (by simp at ha; omega)]
        case dict.dict ps qs =>
          rw [ihP ps qs (by simp at ha; omega)]
      · cases xs with
        | nil => cases ys <;> simp [vbeqList]
        | cons x xs' =>
            cases ys with
            | nil => simp [vbeqList]
            | cons y ys' =>
                simp only [vbeqList, Bool.and_eq_true]
                rw [ihV x y (by simp at hx; omega), ihL xs' ys' (by simp at hx; omega)]
                simp
      · cases ps with
        | nil => cases qs <;> simp [vbeqPairs]
        | cons p ps' =>
            cases qs with
            | nil => simp [vbeqPairs]
            | cons q qs' =>
                obtain ⟨pk, pv⟩ := p
                obtain ⟨qk, qv⟩ := q
                simp only [vbeqPairs, Bool.and_eq_true]
                rw [ihV pv qv (by simp at hp; omega), ihP ps' qs' (by simp at hp; omega)]
                simp [beq_iff_eq, and_assoc]

theorem vbeq_iff_eq (a b : Value) : vbeq a b = true ↔ a = b :=
  (vbeq_aux (sizeOf a)).1 a b le_rfl

instance : DecidableEq Value := fun a b => decidable_of_iff _ (vbeq_iff_eq a b)

/-! ## Python dict primitives (association lists, insertion order) -/

/-- Model of `kvs[k]` lookup for a Python dict: first (and, for a real dict, only)
binding of `k`. -/
def lookupKey : List (String × Value) → String → Option Value
  | [], _ => none
  | kv :: rest, k => if kv.1 = k then some kv.2 else lookupKey rest k

/-- Model of `k in kvs` for a Python dict. -/
def hasKey (kvs : List (String × Value)) (k : String) : Bool :=
  (lookupKey kvs k).isSome

/-- Model of `d[k] = v` for a Python dict: replaces the value in place if `k` is
already bound, otherwise appends the new binding (insertion order). -/
def setKey : List (String × Value) → String → Value → List (String × Value)
  | [], k, v => [(k, v)]
  | kv :: rest, k, v => if kv.1 = k then (k, v) :: rest else kv :: setKey rest k v

/-! ## Canonical JSON serialization
`json.dumps(arg, sort_keys=True, ensure_ascii=False)` with the default
separators `", "` and `": "` (cache.py line 29). -/

/-- Lower-case hex digit. -/
def hexDigitChar (n : Nat) : Char :=
  if n < 10 then Char.ofNat (48 + n) else Char.ofNat (87 + n)

/-- Escaping of one character inside a JSON string literal, as done by
`json.dumps(..., ensure_ascii=False)`: `"`, `\`, the named control
escapes, and `\u00XX` for the remaining control characters; everything
else (including non-ASCII) is emitted verbatim. -/
def jsonEscapeChar (c : Char) : String :=
  if c = '"' then "\\\""
  else if c = '\\' then "\\\\"
  else if c = '\n' then "\\n"
  else if c = '\r' then "\\r"
  else if c = '\t' then "\\t"
  else if c.toNat = 8 then "\\b"
  else if c.toNat = 12 then "\\f"
  else if c.toNat < 32 then
    "\\u00" ++ String.singleton (hexDigitChar (c.toNat / 16)) ++
      String.singleton (hexDigitChar (c.toNat % 16))
  else String.singleton c

/-- JSON escaping of a whole string (without the surrounding quotes). -/
def jsonEscape (s : String) : String :=
  String.join (s.toList.map jsonEscapeChar)

/-- Key order used by `sort_keys=True`: lexicographic (code-point) order on
the keys.  A real Python dict has pairwise-distinct keys, so comparing the
keys alone agrees with Python's tuple comparison of `sorted(d.items())`. -/
def pairKeyLE (a b : String × String) : Prop := a.1 ≤ b.1

instance : DecidableRel pairKeyLE := fun a b =>
  inferInstanceAs (Decidable (a.1 ≤ b.1))

instance : IsTotal (String × String) pairKeyLE :=
  ⟨fun a b => le_total a.1 b.1⟩

instance : IsTrans (String × String) pairKeyLE :=
  ⟨fun _ _ _ hab hbc => le_trans hab hbc⟩

/-- Model of `sorted(items)` of a dict's (key, rendered value) pairs: a stable sort
by key. -/
def sortPairs (l : List (String × String)) : List (String × String) :=
  List.insertionSort pairKeyLE l

/-- One `"key": value` fragment of a serialized JSON object. -/
def renderPair (p : String × String) : String :=
  "\"" ++ jsonEscape p.1 ++ "\": " ++ p.2

mutual

/-- Model of `json.dumps(v, sort_keys=True, ensure_ascii=False)`: canonical JSON
text of a value, with the keys of every object sorted lexicographically. -/
def jsonStr : Value → String
  | .str s => "\"" ++ jsonEscape s ++ "\""
  | .int n => toString n
  | .bool b => if b then "true" else "false"
  | .null => "null"
  | .list xs => "[" ++ String.intercalate ", " (jsonStrList xs) ++ "]"
  | .dict kvs =>
      "\x7b" ++ String.intercalate ", " ((sortPairs (jsonStrPairs kvs)).map renderPair) ++ "\x7d"

/-- Serialization of the elements of a JSON array, in order. -/
def jsonStrList : List Value → List String
  | [] => []
  | v :: vs => jsonStr v :: jsonStrList vs

/-- Serialization of the values of a JSON object's bindings (keys kept,
values rendered); sorting by key happens afterwards in `jsonStr`. -/
def jsonStrPairs : List (String × Value) → List (String × String)
  | [] => []
  | kv :: kvs => (kv.1, jsonStr kv.2) :: jsonStrPairs kvs

end

/-! ## ContentAddresser (`cache.py`, `compute_content_hash`, lines 15-33) -/

/-- Encoding of one argument of `compute_content_hash`: dicts and lists go
through canonical JSON (`json.dumps(arg, sort_keys=True,
ensure_ascii=False)`); everything else through `str(arg)` — note
`str("x") = "x"` (unquoted), `str(1) = "1"`, `str(True) = "True"`,
`str(None) = "None"`. -/
def encodeArg : Value → String
  | .dict kvs => jsonStr (.dict kvs)
  | .list xs => jsonStr (.list xs)
  | .str s => s
  | .int n => toString n
  | .bool b => if b then "True" else "False"
  | .null => "None"

/-- Model of `content_str`: the encoded fragments concatenated in argument order
with no separator (the `content_str += ...` loop, cache.py lines 26-31). -/
def contentStr : List Value → String
  | [] => ""
  | a :: rest => encodeArg a ++ contentStr rest

/-! ### SHA-256 (`hashlib.sha256(...).hexdigest()`), FIPS 180-4,
on the UTF-8 bytes of the content string.  Words are `Nat`s kept below
`2^32` by explicit reduction. -/

/-- UTF-8 encoding of one character (code point), as a list of bytes. -/
def utf8Char (c : Char) : List Nat :=
  let n := c.toNat
  if n < 128 then [n]
  else if n < 2048 then [192 + n / 64, 128 + n % 64]
  else if n < 65536 then [224 + n / 4096, 128 + (n / 64) % 64, 128 + n % 64]
  else [240 + n / 262144, 128 + (n / 4096) % 64, 128 + (n / 64) % 64, 128 + n % 64]

/-- Model of `s.encode("utf-8")` as a list of byte values. -/
def utf8Bytes (s : String) : List Nat :=
  (s.toList.map utf8Char).flatten

/-- Truncation to a 32-bit word. -/
def w32 (x : Nat) : Nat := x % 4294967296

/-- Right rotation of a 32-bit word. -/
def rotr (n x : Nat) : Nat := w32 ((x >>> n) ||| (x <<< (32 - n)))

/-- The SHA-256 round constants. -/
def shaK : List Nat :=
  [1116352408, 1899447441, 3049323471, 3921009573, 961987163,
   1508970993, 2453635748, 2870763221, 3624381080, 310598401,
   607225278, 1426881987, 1925078388, 2162078206, 2614888103,
   3248222580, 3835390401, 4022224774, 264347078, 604807628,
   770255983, 1249150122, 1555081692, 1996064986, 2554220882,
   2821834349, 2952996808, 3210313671, 3336571891, 3584528711,
   113926993, 338241895, 666307205, 773529912, 1294757372,
   1396182291, 1695183700, 1986661051, 2177026350, 2456956037,
   2730485921, 2820302411, 3259730800, 3345764771, 3516065817,
   3600352804, 4094571909, 275423344, 430227734, 506948616,
   659060556, 883997877, 958139571, 1322822218, 1537002063,
   1747873779, 1955562222, 2024104815, 2227730452, 2361852424,
   2428436474, 2756734187, 3204031479, 3329325298]

/-- The SHA-256 initial hash value. -/
def shaH0 : List Nat :=
  [1779033703, 3144134277, 1013904242, 2773480762,
   1359893119, 2600822924, 528734635, 1541459225]

def smallSigma0 (x : Nat) : Nat := rotr 7 x ^^^ rotr 18 x ^^^ (x >>> 3)

def smallSigma1 (x : Nat) : Nat := rotr 17 x ^^^ rotr 19 x ^^^ (x >>> 10)

/-- SHA-256 message padding: `0x80`, zeros, then the 64-bit big-endian bit
length, to a multiple of 64 bytes. -/
def shaPad (msg : List Nat) : List Nat :=
  let L := msg.length
  let lenBits := L * 8
  msg ++ [128] ++ List.replicate ((119 - L % 64) % 64) 0 ++
    (List.range 8).map (fun i => (lenBits >>> (8 * (7 - i))) % 256)

/-- Big-endian grouping of bytes into 32-bit words. -/
def bytesToWords : List Nat → List Nat
  | b0 :: b1 :: b2 :: b3 :: rest =>
      (b0 * 16777216 + b1 * 65536 + b2 * 256 + b3) :: bytesToWords rest
  | _ => []

/-- Splitting the padded message into 64-byte blocks. -/
def chunks64 (l : List Nat) : List (List Nat) :=
  if h : l = [] then []
  else l.take 64 :: chunks64 (l.drop 64)
termination_by l.length
decreasing_by
  have hl : 0 < l.length := List.length_pos.mpr h
  simp only [List.length_drop]
  omega

/-- Extension of the 16-word block to the 64-word message schedule. -/
def extendSchedule (w16 : List Nat) : List Nat :=
  (List.range 48).foldl
    (fun acc _ =>
      let n := acc.length
      acc ++ [w32 (smallSigma1 (acc.getD (n - 2) 0) + acc.getD (n - 7) 0 +
        smallSigma0 (acc.getD (n - 15) 0) + acc.getD (n - 16) 0)])
    w16

/-- The eight SHA-256 working variables. -/
structure ShaState where
  a : Nat
  b : Nat
  c : Nat
  d : Nat
  e : Nat
  f : Nat
  g : Nat
  h : Nat

/-- One SHA-256 compression round; `wk` is the pair (schedule word, round
constant). -/
def shaRound (st : ShaState) (wk : Nat × Nat) : ShaState :=
  let S1 := rotr 6 st.e ^^^ rotr 11 st.e ^^^ rotr 25 st.e
  let ch := (st.e &&& st.f) ^^^ ((4294967295 ^^^ st.e) &&& st.g)
  let temp1 := w32 (st.h + S1 + ch + wk.2 + wk.1)
  let S0 := rotr 2 st.a ^^^ rotr 13 st.a ^^^ rotr 22 st.a
  let maj := (st.a &&& st.b) ^^^ (st.a &&& st.c) ^^^ (st.b &&& st.c)
  let temp2 := w32 (S0 + maj)
  ⟨w32 (temp1 + temp2), st.a, st.b, st.c, w32 (st.d + temp1), st.e, st.f, st.g⟩

/-- Compression of one 64-byte block into the running hash value. -/
def shaCompress (hs : List Nat) (block : List Nat) : List Nat :=
  let ws := extendSchedule (bytesToWords block)
  let st0 : ShaState :=
    ⟨hs.getD 0 0, hs.getD 1 0, hs.getD 2 0, hs.getD 3 0,
     hs.getD 4 0, hs.getD 5 0, hs.getD 6 0, hs.getD 7 0⟩
  let stf := (ws.zip shaK).foldl shaRound st0
  [w32 (hs.getD 0 0 + stf.a), w32 (hs.getD 1 0 + stf.b),
   w32 (hs.getD 2 0 + stf.c), w32 (hs.getD 3 0 + stf.d),
   w32 (hs.getD 4 0 + stf.e), w32 (hs.getD 5 0 + stf.f),
   w32 (hs.getD 6 0 + stf.g), w32 (hs.getD 7 0 + stf.h)]

/-- A 32-bit word as eight lower-case hex digits. -/
def toHex8 (x : Nat) : String :=
  String.mk ((List.range 8).map (fun i => hexDigitChar ((x >>> (4 * (7 - i))) % 16)))

/-- Model of `hashlib.sha256(bytes).hexdigest()`. -/
def sha256hex (msg : List Nat) : String :=
  String.join (((chunks64 (shaPad msg)).foldl shaCompress shaH0).map toHex8)

/-- Model of `compute_content_hash(*args)` (cache.py lines 15-33): encode every
argument, concatenate in order with no separator, and hash the UTF-8
bytes with SHA-256, hex-encoded. -/
def compute_content_hash (args : List Value) : String :=
  sha256hex (utf8Bytes (contentStr args))

/-! ## ResultCache (`cache.py`, `get_cached_result` / `store_cached_result`)

The cache directory is modelled as an association list from cache key to
the content of the file `<key>.json`; a content is either a parsed JSON
value or `corrupt` (a file on which `json.load` raises).  `time.time()`
is an explicit integer parameter. -/

/-- Content of one cache file. -/
inductive RawRecord where
  | json (v : Value)
  | corrupt

/-- The cache directory: file name (= cache key) to file content. -/
abbrev CacheDir := List (String × RawRecord)

/-- Model of `cache_file.exists()` / reading the file for a key. -/
def findRecord : CacheDir → String → Option RawRecord
  | [], _ => none
  | e :: rest, k => if e.1 = k then some e.2 else findRecord rest k

/-- Writing the file for a key (full replacement of the entry). -/
def putRecord : CacheDir → String → RawRecord → CacheDir
  | [], k, r => [(k, r)]
  | e :: rest, k, r => if e.1 = k then (k, r) :: rest else e :: putRecord rest k r

/-- Model of `cache_file.unlink(missing_ok=True)`. -/
def eraseRecord (dir : CacheDir) (k : String) : CacheDir :=
  dir.filter (fun e => !(e.1 == k))

/-- Whether `pat` is a prefix of the second list. -/
def listPrefixOf : List Char → List Char → Bool
  | [], _ => true
  | _ :: _, [] => false
  | a :: as, b :: bs => a == b && listPrefixOf as bs

/-- Whether `pat` occurs as a contiguous substring. -/
def listInfix (pat : List Char) : List Char → Bool
  | [] => pat.isEmpty
  | c :: rest => listPrefixOf pat (c :: rest) || listInfix pat rest

/-- Splitting a character list at every occurrence of `sep` (the pieces
keep their order; `n` separators give `n+1` pieces, possibly empty). -/
def splitCharAux (sep : Char) : List Char → List (List Char)
  | [] => [[]]
  | c :: rest =>
      let r := splitCharAux sep rest
      if c = sep then [] :: r
      else
        match r with
        | s :: ss => (c :: s) :: ss
        | [] => [[c]]

/-- Python `s.split(sep)` for a one-character separator, e.g.
`"a.b".split(".") == ["a", "b"]` and `"".split(".") == [""]`. -/
def pySplit (sep : Char) (s : String) : List String :=
  (splitCharAux sep s.toList).map String.mk

/-- Python `x in v` for a string `x`: key membership for a dict, element
membership for a list, substring test for a string, and a `TypeError`
(modelled as `.error`) for non-iterable values. -/
def pyContains (v : Value) (k : String) : Except Unit Bool :=
  match v with
  | .dict kvs => .ok (hasKey kvs k)
  | .list xs => .ok (xs.any (fun x => vbeq x (.str k)))
  | .str s => .ok (listInfix k.toList s.toList)
  | _ => .error ()

/-- Python `v[k]` for a string key `k`: dict lookup (`KeyError` if
missing), `TypeError` for anything else (list/str indices must be
integers). -/
def pySubscript (v : Value) (k : String) : Except Unit Value :=
  match v with
  | .dict kvs =>
      match lookupKey kvs k with
      | some x => .ok x
      | none => .error ()
  | _ => .error ()

/-- Python `now > v` for a number `now`: defined for numbers (booleans
count as 0/1), a `TypeError` otherwise. -/
def pyGtNum (now : Int) (v : Value) : Except Unit Bool :=
  match v with
  | .int e => .ok (decide (now > e))
  | .bool b => .ok (decide (now > (if b then (1 : Int) else 0)))
  | _ => .error ()

/-- Python `v.get(k, v)`: only dicts have `.get` (`AttributeError`
otherwise, modelled as `.error`). -/
def pyGet (v : Value) (k : String) : Except Unit Value :=
  match v with
  | .dict kvs => .ok ((lookupKey kvs k).getD v)
  | _ => .error ()

/-- Model of `get_cached_result(cache_key, cache_dir)` (cache.py lines 36-79) at
time `now`.  Returns (result-or-absent, cache directory after the call):
a missing file is a miss; a file `json.load` cannot parse is deleted and
a miss; an entry whose `expires_at` is strictly before `now` is deleted
and a miss; any exception inside the `try` (non-dict records reaching
`.get`, non-numeric `expires_at`, ...) deletes the file and is a miss;
otherwise the value under `"result"` (or the whole parsed dict when that
key is absent) is returned, with `"cached": True` inserted when it is a
dict. -/
def get_cached_result (key : String) (now : Int) (dir : CacheDir) :
    Option Value × CacheDir :=
  match findRecord dir key with
  | none => (none, dir)
  | some .corrupt => (none, eraseRecord dir key)
  | some (.json data) =>
      let expRes : Except Unit Bool :=
        match pyContains data "expires_at" with
        | .error e => .error e
        | .ok hasExp =>
            if hasExp then
              match pySubscript data "expires_at" with
              | .error e => .error e
              | .ok v => pyGtNum now v
            else .ok false
      let comp : Except Unit (Option Value) :=
        match expRes with
        | .error e => .error e
        | .ok true => .ok none
        | .ok false =>
            match pyGet data "result" with
            | .error e => .error e
            | .ok (.dict kvs) => .ok (some (.dict (setKey kvs "cached" (.bool true))))
            | .ok other => .ok (some other)
      match comp with
      | .ok (some r) => (some r, dir)
      | .ok none => (none, eraseRecord dir key)
      | .error _ => (none, eraseRecord dir key)

/-- Outcome of the filesystem operations `store_cached_result` performs:
whether `mkdir(parents=True, exist_ok=True)` on the cache directory
succeeds, and whether opening/writing the cache file succeeds. -/
structure FsEnv where
  mkdirOk : Bool
  writeOk : Bool

/-- The record `store_cached_result` writes: `{"result": ..., "cached_at":
now}` plus `"expires_at": now + ttl` when a TTL is given (cache.py lines
103-109). -/
def cacheRecord (result : Value) (ttl : Option Int) (now : Int) : Value :=
  .dict ([("result", result), ("cached_at", .int now)] ++
    (match ttl with
     | some t => [("expires_at", Value.int (now + t))]
     | none => []))

/-- Model of `store_cached_result(cache_key, result, ttl_seconds, cache_dir)`
(cache.py lines 82-116) at time `now`.  The `mkdir` call is OUTSIDE the
`try` block: an uncreatable cache directory raises to the caller
(`.error`).  Opening/writing the cache file is inside the `try`: a write
failure is swallowed and the directory is left unchanged. -/
def store_cached_result (env : FsEnv) (key : String) (result : Value)
    (ttl : Option Int) (now : Int) (dir : CacheDir) : Except String CacheDir :=
  if env.mkdirOk then
    if env.writeOk then
      .ok (putRecord dir key (.json (cacheRecord result ttl now)))
    else
      .ok dir
  else
    .error "mkdir raised"

/-! ## CompilerInvoker (`compiler.py`) -/

/-- Model of `CompilerOutput` (compiler.py lines 17-29). -/
structure CompilerOutput where
  returncode : Int
  stdout : String := ""
  stderr : String := ""
  timeout : Bool := false
  error : Option String := none
  args : List String := []
  cwd : String := ""
  cached : Bool := false
  duration_ms : Int := 0

/-- Python truthiness of an optional string: `None` and `""` are falsy. -/
def pyTruthyOptStr : Option String → Bool
  | none => false
  | some s => !(s == "")

/-- Model of `CompilerOutput.success` (compiler.py lines 31-34):
`self.returncode == 0 and not self.timeout and not self.error`.  Note
that `not self.error` is Python truthiness: an empty error string counts
the same as `None`. -/
def CompilerOutput.success (o : CompilerOutput) : Bool :=
  o.returncode == 0 && !o.timeout && !(pyTruthyOptStr o.error)

/-- One parsed diagnostic (compiler.py lines 90-96). -/
structure Diagnostic where
  file : String
  line : Nat
  column : Nat
  level : String
  message : String
deriving DecidableEq

/-- Python `\s` / `str.strip()` whitespace (ASCII). -/
def pyIsSpace (c : Char) : Bool :=
  c == ' ' || c == '\t' || c == '\n' || c == '\r' ||
    c == Char.ofNat 11 || c == Char.ofNat 12

/-- Model of `str.strip()` on a character list. -/
def pyStripList (cs : List Char) : List Char :=
  ((cs.dropWhile pyIsSpace).reverse.dropWhile pyIsSpace).reverse

/-- Model of `str.strip()`. -/
def pyStrip (s : String) : String :=
  String.mk (pyStripList s.toList)

/-- Model of `int()` on a nonempty digit run. -/
def natOfDigits (ds : List Char) : Nat :=
  ds.foldl (fun n c => n * 10 + (c.toNat - 48)) 0

/-- The alternation `(error|warning|info)`: the branches are mutually
non-prefix, so at most one can match at a given position. -/
def matchSeverity (cs : List Char) : Option (String × List Char) :=
  if listPrefixOf "error".toList cs then some ("error", cs.drop 5)
  else if listPrefixOf "warning".toList cs then some ("warning", cs.drop 7)
  else if listPrefixOf "info".toList cs then some ("info", cs.drop 4)
  else none

/-- Model of `re.match` of the pattern
`([^:]+):(\d+):(\d+):\s*(error|warning|info):\s*(.+)` (compiler.py line
80) against one (already stripped) line, returning the diagnostic built
on lines 89-96.  The pattern is deterministic: `[^:]+` cannot cross a
colon, a digit run must be maximal and followed by `:`, and the
severity words start with non-space letters, so the scan below matches
the regex's backtracking semantics exactly.  The message group `(.+)`
takes the whole remainder (which must be nonempty) and is then
`.strip()`ed, which is insensitive to how much leading whitespace `\s*`
consumed. -/
def parseDiagLine (line : String) : Option Diagnostic :=
  let cs := line.toList
  let (file, rest0) := cs.span (fun c => !(c == ':'))
  if file.isEmpty then none
  else
    match rest0 with
    | ':' :: r1 =>
        let (d1, r2) := r1.span (fun c => c.isDigit)
        if d1.isEmpty then none
        else
          match r2 with
          | ':' :: r3 =>
              let (d2, r4) := r3.span (fun c => c.isDigit)
              if d2.isEmpty then none
              else
                match r4 with
                | ':' :: r5 =>
                    let r6 := r5.dropWhile pyIsSpace
                    match matchSeverity r6 with
                    | some (level, r7) =>
                        match r7 with
                        | ':' :: r8 =>
                            if r8.isEmpty then none
                            else
                              some ⟨String.mk file, natOfDigits d1, natOfDigits d2,
                                level, String.mk (pyStripList r8)⟩
                        | _ => none
                    | none => none
                | _ => none
          | _ => none
    | _ => none

/-- Model of `parse_lean_diagnostics(stderr)` (compiler.py lines 67-98): split on
newlines, strip each line, skip empty lines, and append a diagnostic for
every line the pattern matches, in order. -/
def parse_lean_diagnostics (stderr : String) : List Diagnostic :=
  (pySplit '\n' stderr).foldl
    (fun acc line =>
      let l := pyStrip line
      if l = "" then acc
      else
        match parseDiagLine l with
        | some d => acc ++ [d]
        | none => acc)
    []

/-! ## AttemptLedger (`storage.py`)

The attempt store is an association list from date-partition directory
name (`YYYY-MM-DD`) to the files in that directory (in directory order).
A file `<timestamp>_<attempt_id>.json` is modelled by its timestamp and
id components plus its parsed content (`none` when `json.load` raises).
`uuid.uuid4()` and `datetime.now()` are modelled as explicit parameters;
uuid strings have a fixed 36-character format, so the glob
`*_<attempt_id>.json` matches exactly the files whose id component
equals the given id. -/

/-- One file of a date partition. -/
structure LFile where
  ts : String
  id : String
  content : Option Value
deriving DecidableEq

/-- The ledger: partition directory name to its files. -/
abbrev AttemptStore := List (String × List LFile)

/-- The record `store_compilation_attempt` writes (storage.py lines
45-51); `metadata or {}` turns an omitted metadata into `{}`. -/
def attemptData (input output : Value) (metadata : Option Value)
    (id ts : String) : Value :=
  .dict [("attempt_id", .str id), ("timestamp", .str ts),
    ("input", input), ("output", output),
    ("metadata", metadata.getD (.dict []))]

/-- Creating the date directory if needed and writing the new attempt
file into it (at the end, in directory order). -/
def addToPartition : AttemptStore → String → LFile → AttemptStore
  | [], date, f => [(date, [f])]
  | p :: rest, date, f =>
      if p.1 = date then (p.1, p.2 ++ [f]) :: rest
      else p :: addToPartition rest date f

/-- Model of `store_compilation_attempt(input_data, output_data, metadata)`
(storage.py lines 15-58) with the generated uuid `id`, timestamp string
`ts` and date-directory name `date`: writes the record and returns the
id. -/
def store_compilation_attempt (input output : Value) (metadata : Option Value)
    (id ts date : String) (st : AttemptStore) : String × AttemptStore :=
  (id, addToPartition st date ⟨ts, id, some (attemptData input output metadata id ts)⟩)

/-- Scan of one partition's files matching `*_<id>.json`: the first one
that parses is returned; files that fail to parse are skipped
(storage.py lines 86-91). -/
def scanFiles : List LFile → String → Option Value
  | [], _ => none
  | f :: rest, id =>
      if f.id = id then
        match f.content with
        | some v => some v
        | none => scanFiles rest id
      else scanFiles rest id

/-- Model of `retrieve_attempt(attempt_id)` (storage.py lines 61-93): scan the
date directories in order for a file whose name embeds the id. -/
def retrieve_attempt (id : String) : AttemptStore → Option Value
  | [] => none
  | p :: rest =>
      match scanFiles p.2 id with
      | some v => some v
      | none => retrieve_attempt id rest

/-- All attempt ids present in the store. -/
def storeIds (st : AttemptStore) : List String :=
  (st.map (fun p => p.2.map (fun f => f.id))).flatten

/-- Dotted-path resolution through nested dicts: the inner loop of
`_matches_filters` (storage.py lines 161-166): descend only when the
current value is a dict containing the key. -/
def resolvePath : Value → List String → Option Value
  | v, [] => some v
  | v, k :: rest =>
      match v with
      | .dict kvs =>
          match lookupKey kvs k with
          | some v' => resolvePath v' rest
          | none => none
      | _ => none

/-- Model of `_matches_filters(attempt_data, filters)` (storage.py lines 148-172):
every filter's dotted path must resolve to a value `==` the expected
one. -/
def matches_filters (v : Value) (filters : List (String × Value)) : Bool :=
  filters.all (fun kv =>
    match resolvePath v (pySplit '.' kv.1) with
    | some u => vbeq u kv.2
    | none => false)

/-- The file name `<timestamp>_<attempt_id>.json` (storage.py line 54),
used as the sort key within a partition. -/
def fileName (f : LFile) : String := f.ts ++ "_" ++ f.id ++ ".json"

/-- Relation for `sorted(..., reverse=True)` on partition directories
(descending name). -/
def partGE (a b : String × List LFile) : Prop := b.1 ≤ a.1

instance : DecidableRel partGE := fun a b =>
  inferInstanceAs (Decidable (b.1 ≤ a.1))

/-- Relation for `sorted(..., reverse=True)` on files (descending file
name). -/
def fileGE (a b : LFile) : Prop := fileName b ≤ fileName a

instance : DecidableRel fileGE := fun a b =>
  inferInstanceAs (Decidable (fileName b ≤ fileName a))

/-- The flat file list `query_attempts` builds (storage.py lines
120-127): partitions in descending name order, files within each in
descending file-name order.  Partition names are ISO dates and file
names are ISO-timestamp-prefixed, so descending name order is
newest-first. -/
def collectFilesDesc (st : AttemptStore) : List LFile :=
  ((List.insertionSort partGE st).map
    (fun p => List.insertionSort fileGE p.2)).flatten

/-- The load-filter-collect loop of `query_attempts` (storage.py lines
129-143): stop before each file once `limit` results are collected;
files that fail to parse are skipped. -/
def queryLoop (filters : List (String × Value)) (limit : Nat) :
    List LFile → List Value → List Value
  | [], acc => acc
  | f :: rest, acc =>
      if limit ≤ acc.length then acc
      else
        match f.content with
        | none => queryLoop filters limit rest acc
        | some v =>
            if matches_filters v filters then queryLoop filters limit rest (acc ++ [v])
            else queryLoop filters limit rest acc

/-- Model of `query_attempts(filters, limit)` (storage.py lines 96-145). -/
def query_attempts (filters : List (String × Value)) (limit : Nat)
    (st : AttemptStore) : List Value :=
  queryLoop filters limit (collectFilesDesc st) []

/-! ### `cleanup_old_attempts` (storage.py lines 175-213) -/

/-- Number of leap years in `[1, y]`. -/
def leapsUpTo (y : Nat) : Nat := y / 4 - y / 100 + y / 400

/-- Whether a (Gregorian) year is a leap year. -/
def isLeapYear (y : Nat) : Bool :=
  y % 4 = 0 && (y % 100 ≠ 0 || y % 400 = 0)

/-- Length of month `m` (1-based) in year `y`. -/
def daysInMonth (y m : Nat) : Nat :=
  if m = 2 then (if isLeapYear y then 29 else 28)
  else if m = 4 || m = 6 || m = 9 || m = 11 then 30
  else 31

/-- Days in the months strictly before `m` (1-based) of year `y`. -/
def daysBeforeMonth (y m : Nat) : Nat :=
  (List.range (m - 1)).foldl (fun acc i => acc + daysInMonth y (i + 1)) 0

/-- Absolute day number of a civil date (strictly monotone in
chronological order), used to compare `datetime` values. -/
def dayNumber (y m d : Nat) : Nat :=
  365 * (y - 1) + leapsUpTo (y - 1) + daysBeforeMonth y m + (d - 1)

/-- A run of decimal digits as a number, `none` when empty, too long, or
containing a non-digit. -/
def parseDigits (cs : List Char) (lo hi : Nat) : Option Nat :=
  if lo ≤ cs.length ∧ cs.length ≤ hi ∧ cs.all (fun c => c.isDigit) then
    some (natOfDigits cs)
  else none

/-- Model of `datetime.strptime(name, "%Y-%m-%d")` (storage.py line 205), reduced
to the day number of the parsed date: `%Y` is exactly four digits, `%m`
and `%d` one or two digits, and the resulting date must be valid
(`datetime` constructor limits), else `none` (a raised `ValueError`). -/
def parseYMD (name : String) : Option Nat :=
  match (pySplit '-' name).map String.toList with
  | [ys, ms, ds] => do
      let y ← parseDigits ys 4 4
      let m ← parseDigits ms 1 2
      let d ← parseDigits ds 1 2
      if 1 ≤ y ∧ 1 ≤ m ∧ m ≤ 12 ∧ 1 ≤ d ∧ d ≤ daysInMonth y m then
        some (dayNumber y m d)
      else none
  | _ => none

/-- Model of `date_dir.glob("*.json")` used for the deletion count (storage.py
line 209): the files of the named directory, none when the directory
does not exist. -/
def globJsonCount (st : AttemptStore) (name : String) : Nat :=
  match st with
  | [] => 0
  | p :: rest => if p.1 = name then p.2.length else globJsonCount rest name

/-- Model of `shutil.rmtree(date_dir)`. -/
def erasePartition (st : AttemptStore) (name : String) : AttemptStore :=
  st.filter (fun p => !(p.1 == name))

/-- The directory loop of `cleanup_old_attempts` (storage.py lines
199-211) over the directory names, carrying the evolving store and the
running count.  A directory whose name does not parse is skipped (the
`except` clause); an old directory is removed with `rmtree`, after
which the count is incremented by the number of `*.json` files the glob
sees in the now-deleted directory. -/
def cleanupLoop (cutoff : Int) : List String → AttemptStore → Nat →
    AttemptStore × Nat
  | [], st, n => (st, n)
  | name :: rest, st, n =>
      match parseYMD name with
      | none => cleanupLoop cutoff rest st n
      | some day =>
          if (day : Int) * 86400 < cutoff then
            let st' := erasePartition st name
            cleanupLoop cutoff rest st' (n + globJsonCount st' name)
          else cleanupLoop cutoff rest st n

/-- Model of `cleanup_old_attempts(days_to_keep)` (storage.py lines 175-213) at
time `now` (seconds, same day-number scale as `parseYMD`): partitions
whose (midnight) date is strictly before `now - days_to_keep` days are
deleted whole; the function returns the remaining store and the
reported deletion count. -/
def cleanup_old_attempts (days_to_keep : Int) (now : Int) (st : AttemptStore) :
    AttemptStore × Nat :=
  cleanupLoop (now - days_to_keep * 86400) (st.map (fun p => p.1)) st 0

/-! ## Shared lemmas -/

theorem contentStr_append (l1 l2 : List Value) :
    contentStr (l1 ++ l2) = contentStr l1 ++ contentStr l2 := by
  induction l1 with
  | nil =>
      apply String.ext
      simp [contentStr]
  | cons a rest ih =>
      simp only [List.cons_append, contentStr, List.append_eq, ih, String.append_assoc]

/-- Equality of the concatenated encodings of two sequences that agree
outside one position forces the encodings at that position to agree. -/
theorem contentStr_middle_inj (pre post : List Value) (b c : Value)
    (h : contentStr (pre ++ b :: post) = contentStr (pre ++ c :: post)) :
    encodeArg b = encodeArg c := by
  rw [contentStr_append, contentStr_append] at h
  have hd := congrArg String.data h
  simp only [String.data_append, contentStr] at hd
  have h2 := List.append_cancel_left hd
  have h3 := List.append_cancel_right h2
  exact String.ext h3

/-- Unfolding lemma: `jsonStrPairs` is a `map`. -/
theorem jsonStrPairs_eq_map (l : List (String × Value)) :
    jsonStrPairs l = l.map (fun kv => (kv.1, jsonStr kv.2)) := by
  induction l with
  | nil => rfl
  | cons kv rest ih => simp [jsonStrPairs, ih]

/-- Strict key order on rendered pairs. -/
def pairKeyLT (a b : String × String) : Prop := a.1 < b.1

instance : IsAntisymm (String × String) pairKeyLT :=
  ⟨fun _ _ h1 h2 => absurd (lt_trans h1 h2) (lt_irrefl _)⟩

/-- A stable sort by key is determined by the multiset of pairs once the
keys are pairwise distinct: sorting two permutations of the same
distinct-key binding list gives the same list. -/
theorem sortPairs_perm_eq {l1 l2 : List (String × String)}
    (hp : l1.Perm l2) (hn : (l1.map Prod.fst).Nodup) :
    sortPairs l1 = sortPairs l2 := by
  have hp1 : (sortPairs l1).Perm l1 := List.perm_insertionSort pairKeyLE l1
  have hp2 : (sortPairs l2).Perm l2 := List.perm_insertionSort pairKeyLE l2
  have hperm : (sortPairs l1).Perm (sortPairs l2) := hp1.trans (hp.trans hp2.symm)
  have hs1 : (sortPairs l1).Sorted pairKeyLE := List.sorted_insertionSort pairKeyLE l1
  have hs2 : (sortPairs l2).Sorted pairKeyLE := List.sorted_insertionSort pairKeyLE l2
  have hn1 : ((sortPairs l1).map Prod.fst).Nodup := ((hp1.map Prod.fst).nodup_iff).mpr hn
  have hn2 : ((sortPairs l2).map Prod.fst).Nodup := ((hperm.map Prod.fst).nodup_iff).mp hn1
  have hne1 : (sortPairs l1).Pairwise (fun a b => a.1 ≠ b.1) := List.pairwise_map.mp hn1
  have hne2 : (sortPairs l2).Pairwise (fun a b => a.1 ≠ b.1) := List.pairwise_map.mp hn2
  have hlt1 : (sortPairs l1).Pairwise pairKeyLT :=
    (hs1.and hne1).imp (fun h => lt_of_le_of_ne h.1 h.2)
  have hlt2 : (sortPairs l2).Pairwise pairKeyLT :=
    (hs2.and hne2).imp (fun h => lt_of_le_of_ne h.1 h.2)
  exact List.eq_of_perm_of_sorted hperm hlt1 hlt2

/-- Canonical JSON of a dict depends only on the multiset of bindings
when keys are distinct. -/
theorem jsonStr_dict_perm {m1 m2 : List (String × Value)} (hp : m1.Perm m2)
    (hn : (m1.map Prod.fst).Nodup) :
    jsonStr (.dict m1) = jsonStr (.dict m2) := by
  have hmap : (jsonStrPairs m1).Perm (jsonStrPairs m2) := by
    rw [jsonStrPairs_eq_map, jsonStrPairs_eq_map]
    exact hp.map _
  have hcomp : (Prod.fst ∘ fun kv : String × Value => (kv.1, jsonStr kv.2)) = Prod.fst :=
    funext fun kv => rfl
  have hkeys : ((jsonStrPairs m1).map Prod.fst).Nodup := by
    rw [jsonStrPairs_eq_map, List.map_map, hcomp]
    exact hn
  simp only [jsonStr]
  rw [sortPairs_perm_eq hmap hkeys]

/-! ## Claims about the ContentAddresser -/

/-- C1 counterexample: the argument sequences `(1,)` and `("1",)` differ
in their single argument, yet produce identical cache keys, because
`str(1)` and `str("1")` encode to the same fragment `"1"`. -/
theorem compute_content_hash_single_diff_cex :
    compute_content_hash [Value.int 1] = compute_content_hash [Value.str "1"] ∧
    Value.int 1 ≠ Value.str "1" := by
  constructor
  · have h : contentStr [Value.int 1] = contentStr [Value.str "1"] := by decide
    unfold compute_content_hash
    rw [h]
  · decide

/-- C1 (amended): identical argument sequences produce identical keys
(the digest is a pure function of the arguments), and a single differing
argument changes the concatenated pre-image that is hashed — hence, short
of a SHA-256 collision, the key — whenever the two arguments' canonical
encodings differ.  Encoding is not injective across types (`1` vs `"1"`),
and such same-encoding pairs yield equal keys. -/
theorem compute_content_hash_amended (pre post : List Value) (b c : Value)
    (h : encodeArg b ≠ encodeArg c) :
    compute_content_hash (pre ++ b :: post) = compute_content_hash (pre ++ b :: post) ∧
    contentStr (pre ++ b :: post) ≠ contentStr (pre ++ c :: post) := by
  refine ⟨rfl, fun hc => h (contentStr_middle_inj pre post b c hc)⟩

/-- Witness for the amended C1 at a concrete input. -/
theorem compute_content_hash_amended_witness :
    encodeArg (Value.str "a") ≠ encodeArg (Value.str "b") ∧
    contentStr [Value.str "a"] ≠ contentStr [Value.str "b"] :=
  ⟨by decide, (compute_content_hash_amended [] [] (Value.str "a") (Value.str "b") (by decide)).2⟩

/-- C9: reordering the bindings of a dict argument (the keys being
distinct, as they are in a Python dict) does not change the computed
cache key, because the canonical serialization sorts keys. -/
theorem compute_content_hash_dict_reorder (pre post : List Value)
    (m1 m2 : List (String × Value)) (hperm : m1.Perm m2)
    (hnodup : (m1.map Prod.fst).Nodup) :
    compute_content_hash (pre ++ Value.dict m1 :: post) =
      compute_content_hash (pre ++ Value.dict m2 :: post) := by
  have hd : encodeArg (.dict m1) = encodeArg (.dict m2) := jsonStr_dict_perm hperm hnodup
  have hc : contentStr (pre ++ Value.dict m1 :: post) =
      contentStr (pre ++ Value.dict m2 :: post) := by
    rw [contentStr_append, contentStr_append]
    simp only [contentStr]
    rw [hd]
  unfold compute_content_hash
  rw [hc]

/-- Witness for C9 at a concrete input. -/
theorem compute_content_hash_dict_reorder_witness :
    ([("b", Value.int 1), ("a", Value.str "x")] : List (String × Value)).Perm
      [("a", Value.str "x"), ("b", Value.int 1)] ∧
    (([("b", Value.int 1), ("a", Value.str "x")] : List (String × Value)).map Prod.fst).Nodup ∧
    compute_content_hash [Value.dict [("b", Value.int 1), ("a", Value.str "x")]] =
      compute_content_hash [Value.dict [("a", Value.str "x"), ("b", Value.int 1)]] :=
  ⟨by decide, by decide,
    compute_content_hash_dict_reorder [] [] _ _ (by decide) (by decide)⟩

/-! ## Claims about the CompilerInvoker -/

/-- C7 counterexample: an outcome with return code 0, no timeout, and the
error field SET to the empty string is reported successful, although an
error description is set (Python truthiness treats `""` like `None`). -/
theorem success_empty_error_cex :
    CompilerOutput.success ⟨0, "", "", false, some "", [], "", false, 0⟩ = true ∧
    (⟨0, "", "", false, some "", [], "", false, 0⟩ : CompilerOutput).error ≠ none := by
  constructor
  · rfl
  · intro h
    cases h

/-- C7 (amended): `success` is true iff the return code is zero, the
timed-out flag is false, and the error field is falsy — unset (`None`)
or the empty string. -/
theorem success_iff (o : CompilerOutput) :
    o.success = true ↔
      (o.returncode = 0 ∧ o.timeout = false ∧ (o.error = none ∨ o.error = some "")) := by
  unfold CompilerOutput.success pyTruthyOptStr
  cases he : o.error with
  | none => simp [he]
  | some s =>
      by_cases hs : s = "" <;> simp [he, hs]

/-- The diagnostics-collecting loop appends, in line order, exactly the
diagnostics of the matching stripped lines. -/
theorem diagLoop_eq (lines : List String) (acc : List Diagnostic) :
    lines.foldl
      (fun acc line =>
        let l := pyStrip line
        if l = "" then acc
        else
          match parseDiagLine l with
          | some d => acc ++ [d]
          | none => acc) acc =
      acc ++ lines.filterMap
        (fun line =>
          if pyStrip line = "" then none else parseDiagLine (pyStrip line)) := by
  induction lines generalizing acc with
  | nil => simp
  | cons line rest ih =>
      simp only [List.foldl_cons, List.filterMap_cons]
      by_cases h : pyStrip line = ""
      · simp [h, ih]
      · cases hd : parseDiagLine (pyStrip line) <;> simp [h, hd, ih]

/-- C8: `parseDiagnostics` on the specified input yields exactly the two
diagnostics, in order, with integer line/column; and in general the scan
emits, in order, one diagnostic per stripped line matching the pattern,
silently ignoring all other lines. -/
theorem parse_lean_diagnostics_spec :
    parse_lean_diagnostics "a.lean:5:10: error: bad\nnoise\nb.lean:1:1: warning: w" =
      [⟨"a.lean", 5, 10, "error", "bad"⟩, ⟨"b.lean", 1, 1, "warning", "w"⟩] ∧
    ∀ s, parse_lean_diagnostics s =
      (pySplit '\n' s).filterMap
        (fun line =>
          if pyStrip line = "" then none else parseDiagLine (pyStrip line)) := by
  constructor
  · decide
  · intro s
    unfold parse_lean_diagnostics
    rw [diagLoop_eq]
    simp

/-! ## Claims about the ResultCache -/

/-- C3 counterexample: with an uncreatable cache directory (`mkdir`
raising), `store_cached_result` raises to the caller — the `mkdir` call
sits outside the `try` block. -/
theorem store_cached_result_raises_cex :
    store_cached_result ⟨false, true⟩ "k" (Value.dict []) none 0 [] =
      .error "mkdir raised" := rfl

/-- C3 (amended): whenever the cache directory itself can be created,
`store_cached_result` never raises — in particular a failure to open or
write the cache file is swallowed and the call returns normally. -/
theorem store_cached_result_amended (env : FsEnv) (key : String) (result : Value)
    (ttl : Option Int) (now : Int) (dir : CacheDir) (h : env.mkdirOk = true) :
    ∃ d, store_cached_result env key result ttl now dir = .ok d := by
  unfold store_cached_result
  rw [h]
  by_cases hw : env.writeOk <;> simp [hw]

/-- Witness for the amended C3: the write itself fails, yet the call
returns normally. -/
theorem store_cached_result_amended_witness :
    (⟨true, false⟩ : FsEnv).mkdirOk = true ∧
    ∃ d, store_cached_result ⟨true, false⟩ "k" (Value.dict []) none 0 [] = .ok d :=
  ⟨rfl, store_cached_result_amended ⟨true, false⟩ "k" (Value.dict []) none 0 [] rfl⟩

/-! ## Claims about the AttemptLedger -/

/-- C4: the purge deletes the old partition but reports a count of 0,
because the `*.json` glob used for counting runs after `rmtree` has
already removed the directory.  Here one partition strictly older than
the cutoff holds one attempt record: the claim (and the function's own
docstring) requires a return of 1, the code returns 0. -/
theorem cleanup_old_attempts_count_bug :
    cleanup_old_attempts 30 (86400 * 720000)
        [("1970-01-02", [⟨"1970-01-02T00:00:00", "id0", some (Value.dict [])⟩])] =
      ([], 0) := by decide

/-! ## C2: store followed by lookup -/

theorem findRecord_putRecord (dir : CacheDir) (k : String) (r : RawRecord) :
    findRecord (putRecord dir k r) k = some r := by
  induction dir with
  | nil => simp [putRecord, findRecord]
  | cons e rest ih =>
      by_cases h : e.1 = k
      · simp [putRecord, findRecord, h]
      · simp [putRecord, findRecord, h, ih]

/-- C2 counterexample: `store(k, r, ttl=0)` followed by a lookup at the
very same clock reading returns the result with `cached=true` — not
absent — because the expiry test is the strict `time.time() >
expires_at`; for the same reason an entry whose expiry equals the
current time is NOT treated as absent. -/
theorem store_zero_ttl_lookup_cex :
    store_cached_result ⟨true, true⟩ "k" (Value.dict []) (some 0) 0 [] =
      .ok [("k", RawRecord.json (cacheRecord (Value.dict []) (some 0) 0))] ∧
    (get_cached_result "k" 0
        [("k", RawRecord.json (cacheRecord (Value.dict []) (some 0) 0))]).1 =
      some (Value.dict [("cached", Value.bool true)]) := by
  exact ⟨rfl, rfl⟩

/-- C2 (amended): `store(k, r, ttl=T)` at time `t` followed by `lookup(k)`
at time `tq` returns `r` with `"cached": True` added when `T` is absent,
and when `T` is present as long as `tq ≤ t + T` (so also at the very
expiry instant); it returns absent AND deletes the backing record exactly
when `tq` is strictly past `t + T` — in particular for any negative `T`,
and for `T = 0` whenever the lookup's clock reading is strictly later
than the store's. -/
theorem store_then_lookup_amended (key : String) (r : List (String × Value))
    (ttl : Option Int) (t tq : Int) (dir : CacheDir) :
    store_cached_result ⟨true, true⟩ key (.dict r) ttl t dir =
      .ok (putRecord dir key (.json (cacheRecord (.dict r) ttl t))) ∧
    (ttl = none →
      get_cached_result key tq (putRecord dir key (.json (cacheRecord (.dict r) none t))) =
        (some (.dict (setKey r "cached" (.bool true))),
          putRecord dir key (.json (cacheRecord (.dict r) none t)))) ∧
    (∀ T, ttl = some T → tq ≤ t + T →
      get_cached_result key tq (putRecord dir key (.json (cacheRecord (.dict r) (some T) t))) =
        (some (.dict (setKey r "cached" (.bool true))),
          putRecord dir key (.json (cacheRecord (.dict r) (some T) t)))) ∧
    (∀ T, ttl = some T → t + T < tq →
      get_cached_result key tq (putRecord dir key (.json (cacheRecord (.dict r) (some T) t))) =
        (none,
          eraseRecord (putRecord dir key (.json (cacheRecord (.dict r) (some T) t))) key)) := by
  refine ⟨rfl, ?_, ?_, ?_⟩
  · intro _
    have hf := findRecord_putRecord dir key (.json (cacheRecord (.dict r) none t))
    simp only [cacheRecord, List.append_nil] at hf
    simp [get_cached_result, hf, cacheRecord, pyContains, hasKey, lookupKey, pyGet,
      pySubscript, pyGtNum]
  · intro T _ hle
    have hf := findRecord_putRecord dir key (.json (cacheRecord (.dict r) (some T) t))
    simp only [cacheRecord, List.cons_append, List.nil_append] at hf
    have hdec : decide (tq > t + T) = false := decide_eq_false (by omega)
    simp [get_cached_result, hf, cacheRecord, pyContains, hasKey, lookupKey, pyGet,
      pySubscript, pyGtNum, hdec]
  · intro T _ hlt
    have hf := findRecord_putRecord dir key (.json (cacheRecord (.dict r) (some T) t))
    simp only [cacheRecord, List.cons_append, List.nil_append] at hf
    have hdec : decide (tq > t + T) = true := decide_eq_true (by omega)
    simp [get_cached_result, hf, cacheRecord, pyContains, hasKey, lookupKey, pyGet,
      pySubscript, pyGtNum, hdec]

/-- Witness for the amended C2: a future-expiry lookup hit and a
past-expiry lookup miss-and-delete, at concrete times. -/
theorem store_then_lookup_amended_witness :
    (get_cached_result "k" 5
        (putRecord [] "k" (.json (cacheRecord (Value.dict []) (some 10) 0)))).1 =
      some (Value.dict [("cached", Value.bool true)]) ∧
    get_cached_result "k" 11
        (putRecord [] "k" (.json (cacheRecord (Value.dict []) (some 10) 0))) =
      (none, []) := by
  constructor
  · have h := (store_then_lookup_amended "k" [] (some 10) 0 5 []).2.2.1 10 rfl (by omega)
    rw [h]
    rfl
  · have h := (store_then_lookup_amended "k" [] (some 10) 0 11 []).2.2.2 10 rfl (by omega)
    rw [h]
    rfl

/-! ## C10: records without a `result` field -/

/-- C10 counterexample: a record whose content is perfectly valid JSON
(the empty list) is DELETED and reported absent — `[].get` raises
`AttributeError`, caught by the blanket `except` which unlinks the
file.  The claim says any valid-JSON record without a `result` field is
returned whole and only unparsable records are deleted. -/
theorem get_cached_result_nonmapping_cex :
    get_cached_result "k" 0 [("k", RawRecord.json (.list []))] = (none, []) := rfl

/-- C10 (amended): a record parsing as a JSON mapping with no `result`
binding (and no expiry) is returned whole with `"cached": True` added
and the file kept; a record parsing as non-mapping JSON is deleted and
reported absent, exactly like an unparsable record. -/
theorem get_cached_result_no_result_field (key : String) (now : Int)
    (dir : CacheDir) (v : Value) (hfind : findRecord dir key = some (.json v)) :
    (∀ kvs, v = .dict kvs → hasKey kvs "result" = false →
      hasKey kvs "expires_at" = false →
      get_cached_result key now dir = (some (.dict (setKey kvs "cached" (.bool true))), dir)) ∧
    ((∀ kvs, v ≠ .dict kvs) →
      get_cached_result key now dir = (none, eraseRecord dir key)) := by
  constructor
  · rintro kvs rfl hres hexp
    have hlk : lookupKey kvs "result" = none := by
      cases hx : lookupKey kvs "result" with
      | none => rfl
      | some u => rw [hasKey, hx] at hres; simp at hres
    simp [get_cached_result, hfind, pyContains, hexp, pyGet, hlk]
  · intro hnd
    cases v with
    | dict kvs => exact absurd rfl (hnd kvs)
    | str s =>
        simp only [get_cached_result, hfind, pyContains, pyGet, pySubscript]
        split
        · rename_i r heq
          split at heq <;> simp at heq
        · rfl
        · rfl
    | list xs =>
        cases hany : xs.any (fun x => vbeq x (.str "expires_at")) <;>
          simp [get_cached_result, hfind, pyContains, hany, pyGet, pySubscript]
    | int n => simp [get_cached_result, hfind, pyContains]
    | bool b => simp [get_cached_result, hfind, pyContains]
    | null => simp [get_cached_result, hfind, pyContains]

/-- Witness for the amended C10 at a concrete mapping record. -/
theorem get_cached_result_no_result_field_witness :
    findRecord [("k", RawRecord.json (.dict [("x", Value.int 5)]))] "k" =
      some (.json (.dict [("x", Value.int 5)])) ∧
    get_cached_result "k" 0 [("k", RawRecord.json (.dict [("x", Value.int 5)]))] =
      (some (.dict [("x", Value.int 5), ("cached", Value.bool true)]),
        [("k", RawRecord.json (.dict [("x", Value.int 5)]))]) := by
  refine ⟨rfl, ?_⟩
  have h := (get_cached_result_no_result_field "k" 0
      [("k", RawRecord.json (.dict [("x", Value.int 5)]))]
      (.dict [("x", Value.int 5)]) rfl).1 [("x", Value.int 5)] rfl rfl rfl
  exact h

/-! ## C5: append then get -/

theorem scanFiles_none (fs : List LFile) (id : String)
    (h : ∀ f ∈ fs, f.id ≠ id) : scanFiles fs id = none := by
  induction fs with
  | nil => rfl
  | cons f rest ih =>
      have hf : f.id ≠ id := h f (by simp)
      simp [scanFiles, hf, ih (fun g hg => h g (by simp [hg]))]

theorem scanFiles_append_last (fs : List LFile) (id ts : String) (v : Value)
    (h : ∀ f ∈ fs, f.id ≠ id) :
    scanFiles (fs ++ [⟨ts, id, some v⟩]) id = some v := by
  induction fs with
  | nil => simp [scanFiles]
  | cons f rest ih =>
      have hf : f.id ≠ id := h f (by simp)
      simp [scanFiles, hf, ih (fun g hg => h g (by simp [hg]))]

/-- C5: appending an attempt under a fresh id (as a fresh `uuid4` is) and
then retrieving that id returns exactly the stored record, whose
`input` and `output` fields are what was stored. -/
theorem store_then_retrieve_attempt (input output : Value) (metadata : Option Value)
    (id ts date : String) (st : AttemptStore) (hfresh : id ∉ storeIds st) :
    retrieve_attempt id (store_compilation_attempt input output metadata id ts date st).2 =
      some (attemptData input output metadata id ts) ∧
    resolvePath (attemptData input output metadata id ts) ["input"] = some input ∧
    resolvePath (attemptData input output metadata id ts) ["output"] = some output := by
  refine ⟨?_, rfl, rfl⟩
  show retrieve_attempt id
      (addToPartition st date ⟨ts, id, some (attemptData input output metadata id ts)⟩) =
    some (attemptData input output metadata id ts)
  induction st with
  | nil => simp [addToPartition, retrieve_attempt, scanFiles]
  | cons p rest ih =>
      simp only [storeIds, List.map_cons, List.flatten_cons, List.mem_append] at hfresh
      push_neg at hfresh
      obtain ⟨hp, hrest⟩ := hfresh
      have h1 : ∀ f ∈ p.2, f.id ≠ id := by
        intro f hf heq
        exact hp (List.mem_map.mpr ⟨f, hf, heq⟩)
      by_cases hd : p.1 = date
      · simp [addToPartition, hd, retrieve_attempt,
          scanFiles_append_last p.2 id ts _ h1]
      · have ih' := ih (by simpa [storeIds] using hrest)
        simp [addToPartition, hd, retrieve_attempt, scanFiles_none p.2 id h1, ih']

/-- Witness for C5 at a concrete input (empty ledger, so the id is
fresh). -/
theorem store_then_retrieve_attempt_witness :
    ("u1" ∉ storeIds []) ∧
    retrieve_attempt "u1"
        (store_compilation_attempt (Value.str "inp") (Value.str "out") none
          "u1" "2024-01-01T00:00:00" "2024-01-01" []).2 =
      some (attemptData (Value.str "inp") (Value.str "out") none "u1"
        "2024-01-01T00:00:00") := by
  refine ⟨by simp [storeIds], ?_⟩
  exact (store_then_retrieve_attempt (Value.str "inp") (Value.str "out") none
    "u1" "2024-01-01T00:00:00" "2024-01-01" [] (by simp [storeIds])).1

/-! ## C6: query characterization -/

theorem queryLoop_eq (filters : List (String × Value)) (limit : Nat)
    (files : List LFile) (acc : List Value) :
    queryLoop filters limit files acc =
      acc ++ ((files.filterMap (fun f => f.content)).filter
        (fun v => matches_filters v filters)).take (limit - acc.length) := by
  induction files generalizing acc with
  | nil => simp [queryLoop]
  | cons f rest ih =>
      by_cases hl : limit ≤ acc.length
      · have h0 : limit - acc.length = 0 := Nat.sub_eq_zero_of_le hl
        simp [queryLoop, hl, h0]
      · cases hc : f.content with
        | none => simp [queryLoop, hl, hc, ih]
        | some v =>
            by_cases hm : matches_filters v filters
            · have hx : limit - acc.length = (limit - (acc.length + 1)) + 1 := by omega
              simp only [queryLoop, hl, if_false, hc, hm, if_true, ih,
                List.filterMap_cons, List.filter_cons]
              rw [hx]
              simp [List.append_assoc]
            · simp [queryLoop, hl, hc, hm, ih]

/-- C6: `query` returns exactly the parse-able stored attempts that pass
every filter, in the order of the descending-name partition/file sort
(newest first for the ISO date/timestamp names `append` produces),
truncated to the first `limit`; and an attempt passes the filters iff
every filter's dotted path resolves through nested dicts to a value
equal to the expected one (missing path segment or non-dict intermediate
value means no match). -/
theorem query_attempts_spec (filters : List (String × Value)) (limit : Nat)
    (st : AttemptStore) :
    query_attempts filters limit st =
      (((collectFilesDesc st).filterMap (fun f => f.content)).filter
        (fun v => matches_filters v filters)).take limit ∧
    ∀ (v : Value) (fs : List (String × Value)),
      matches_filters v fs = true ↔
        ∀ kv ∈ fs, resolvePath v (pySplit '.' kv.1) = some kv.2 := by
  constructor
  · unfold query_attempts
    rw [queryLoop_eq]
    simp
  · intro v fs
    simp only [matches_filters, List.all_eq_true]
    constructor
    · intro h kv hkv
      have hx := h kv hkv
      cases hr : resolvePath v (pySplit '.' kv.1) with
      | none => rw [hr] at hx; simp at hx
      | some u =>
          rw [hr] at hx
          exact congrArg some ((vbeq_iff_eq u kv.2).mp hx)
    · intro h kv hkv
      rw [h kv hkv]
      exact (vbeq_iff_eq kv.2 kv.2).mpr rfl

end LeanBench
